import Mathlib

/-!
Shallow embedding of `src/main.py` of the repository
`Brxj19/Pdfs_qr_code_extractor_mac`, a PDF QR-code extraction utility.

External collaborators (PyMuPDF image extraction, pyzbar QR decoding, PIL/cv2
image transforms, the filesystem) are modelled as oracle parameters:
  * `decode : Img → Except Unit (List String)` — pyzbar `decode` followed by
    the UTF-8 payload extraction loop; `.error` models a raised exception;
  * `enhance_image, preprocess_image : Img → Except Unit Img` — the two
    preprocessing transforms (PIL photometric enhancement, cv2
    denoise + adaptive threshold); `.error` models a raised exception;
  * `save : Img → String → Except Unit Unit` — `PIL.Image.save`;
  * `extract : String → Except Unit (List (Img × Nat))` —
    `extract_images_from_pdf` (pages are 1-based, as in the source).
Raster images are an abstract type `Img`; transforms produce new values.
The control flow of `main.py` (try/except placement, fallback order,
accumulation, sentinel records) is translated function by function.
Detection functions additionally return an instrumentation trace
(the sequence of oracle calls made / the save calls issued) so that
short-circuit and persistence properties are expressible.
-/

deriving instance DecidableEq for Except

namespace QRSpec

/-- A row of the report: the dict
`{"PDF Name", "Page Number", "QR Code Data", "QR Image Path"}` built in
`process_pdf` / `process_pdfs_in_folder`.  `pageNumber` is the string form
of the page number (the CSV writer stringifies it), `""` for sentinels. -/
structure QRRecord where
  pdfName : String
  pageNumber : String
  qrCodeData : String
  qrImagePath : String
deriving DecidableEq

/-- Instrumentation events for the detection orchestrator
`read_qr_codes_from_image`: each oracle invocation, in order. -/
inductive Call (Img : Type) where
  | decode (i : Img)
  | enhance (i : Img)
  | preprocess (i : Img)
deriving DecidableEq

/-- The character class of `re.sub(r'[\\/:"*?<>|]+', '_', filename)`
in `sanitize_filename`. -/
def forbiddenChar (c : Char) : Bool :=
  c = '\\' || c = '/' || c = ':' || c = '"' || c = '*' || c = '?' ||
    c = '<' || c = '>' || c = '|'

/-- State-machine rendering of `re.sub(r'[\\/:"*?<>|]+', '_', ...)`:
each maximal run of forbidden characters is replaced by a single `'_'`.
`inRun` records whether the previous character belonged to such a run. -/
def sanitizeAux (inRun : Bool) : List Char → List Char
  | [] => []
  | c :: rest =>
    if forbiddenChar c then
      if inRun then sanitizeAux true rest
      else '_' :: sanitizeAux true rest
    else c :: sanitizeAux false rest

/-- `sanitize_filename` from `main.py`:
`re.sub(r'[\\/:"*?<>|]+', '_', filename)`. -/
def sanitize_filename (filename : String) : String :=
  String.mk (sanitizeAux false filename.data)

/-- Python `str.split(sep)` (unbounded maxsplit) on a list of characters:
the segments between occurrences of `sep`, empty segments included. -/
def pySplit (sep : Char) : List Char → List (List Char)
  | [] => [[]]
  | c :: rest =>
    if c = sep then [] :: pySplit sep rest
    else (c :: (pySplit sep rest).headD []) :: (pySplit sep rest).tail

/-- `pdf_filename.split('.')[0]` from `process_pdf`: the document
identifier (called `pdf_number` in the source). -/
def pdf_number_of (pdf_filename : String) : String :=
  String.mk ((pySplit '.' pdf_filename.data).headD [])

/-- Modelled from the spec: "stem only (prefix before the first period)" —
the comparison definition for the document-identifier truncation rule. -/
def stemBeforeFirstDot (pdf_filename : String) : String :=
  String.mk (pdf_filename.data.takeWhile (fun c => c ≠ '.'))

/-- `os.path.join(a, b)` for POSIX paths as used here: an absolute second
component replaces the first, otherwise the components are joined with a
single `'/'` separator (none added after an empty or `'/'`-terminated
first component). -/
def os_path_join (a b : String) : String :=
  if b.data.headD ' ' = '/' then b
  else if a = "" || a.data.getLast? = some '/' then a ++ b
  else a ++ "/" ++ b

/-- Python `str.endswith(suffix)`: suffix test on the character sequence. -/
def py_endswith (s suffix : String) : Bool :=
  List.isSuffixOf suffix.data s.data

/-- `[f for f in os.listdir(folder_path) if f.endswith('.pdf')]` from
`process_pdfs_in_folder`; `folder` is the (top-level) directory listing. -/
def pdf_files_of (folder : List String) : List String :=
  folder.filter (fun f => py_endswith f ".pdf")

variable {Img : Type}

/-- `read_qr_codes_from_image` from `main.py`.  A single `try` block wraps
all three decode attempts (raw image, `enhance_image` variant,
`preprocess_image` variant); `qr_data_list` accumulates across attempts and
is returned both on normal completion and when an exception is caught.
Returns the accumulated payload list together with the trace of oracle
calls actually made, in order. -/
def read_qr_codes_from_image (decode : Img → Except Unit (List String))
    (enhance_image preprocess_image : Img → Except Unit Img)
    (image : Img) : List String × List (Call Img) :=
  match decode image with
  | .error _ => ([], [.decode image])
  | .ok r1 =>
    if r1 = [] then
      match enhance_image image with
      | .error _ => (r1, [.decode image, .enhance image])
      | .ok enhanced =>
        match decode enhanced with
        | .error _ => (r1, [.decode image, .enhance image, .decode enhanced])
        | .ok r2 =>
          if r1 ++ r2 = [] then
            match preprocess_image image with
            | .error _ =>
              (r1 ++ r2,
               [.decode image, .enhance image, .decode enhanced,
                .preprocess image])
            | .ok preprocessed =>
              match decode preprocessed with
              | .error _ =>
                (r1 ++ r2,
                 [.decode image, .enhance image, .decode enhanced,
                  .preprocess image, .decode preprocessed])
              | .ok r3 =>
                (r1 ++ r2 ++ r3,
                 [.decode image, .enhance image, .decode enhanced,
                  .preprocess image, .decode preprocessed])
          else (r1 ++ r2, [.decode image, .enhance image, .decode enhanced])
    else (r1, [.decode image])

/-- The filename
`f"{pdf_number}page{page_num}qr{qr_index + 1}id{qr_code_id}.png"`
built in `process_pdf` (`qr_index` is the 0-based `enumerate` index). -/
def qr_image_filename (pdf_number : String) (page_num qr_index : Nat)
    (qr_code_id : String) : String :=
  pdf_number ++ "page" ++ toString page_num ++ "qr" ++
    toString (qr_index + 1) ++ "id" ++ qr_code_id ++ ".png"

/-- The none-found sentinel appended by `process_pdf` when
`qr_code_data_list` ends up empty. -/
def no_qr_record (pdf_filename : String) : QRRecord :=
  { pdfName := pdf_filename, pageNumber := "", qrCodeData := "NO QR code found",
    qrImagePath := "" }

/-- The per-document error sentinel appended by `process_pdfs_in_folder`
when processing a document raises. -/
def error_record (pdf_file : String) : QRRecord :=
  { pdfName := pdf_file, pageNumber := "", qrCodeData := "Error processing PDF",
    qrImagePath := "" }

/-- The inner `for qr_index, qr_code_data in enumerate(qr_codes)` loop of
`process_pdf`, over the enumerated payload list: build the target path,
call `image.save(image_path)`, and append the QRRecord only when the save
succeeded (a save exception is caught, logged, and the record skipped).
Returns the records appended and the save calls `(image, path)` issued. -/
def process_qr_codes (save : Img → String → Except Unit Unit)
    (pdf_filename pdf_number pdf_save_dir : String)
    (image : Img) (page_num : Nat) :
    List (Nat × String) → List QRRecord × List (Img × String)
  | [] => ([], [])
  | (qr_index, qr_code_data) :: rest =>
    let qr_code_id := sanitize_filename qr_code_data
    let image_path :=
      os_path_join pdf_save_dir
        (qr_image_filename pdf_number page_num qr_index qr_code_id)
    let r := process_qr_codes save pdf_filename pdf_number pdf_save_dir
        image page_num rest
    match save image image_path with
    | .ok _ =>
      ({ pdfName := pdf_filename, pageNumber := toString page_num,
         qrCodeData := qr_code_data, qrImagePath := image_path } :: r.1,
       (image, image_path) :: r.2)
    | .error _ => (r.1, (image, image_path) :: r.2)

/-- One iteration of the `for image, page_num in images` loop of
`process_pdf`: run the detection orchestrator, and if it found payloads,
run the save-and-record loop over `enumerate(qr_codes)`. -/
def process_one_image (decode : Img → Except Unit (List String))
    (enhance_image preprocess_image : Img → Except Unit Img)
    (save : Img → String → Except Unit Unit)
    (pdf_filename pdf_number pdf_save_dir : String)
    (image : Img) (page_num : Nat) : List QRRecord × List (Img × String) :=
  let qr_codes :=
    (read_qr_codes_from_image decode enhance_image preprocess_image image).1
  if qr_codes = [] then ([], [])
  else
    process_qr_codes save pdf_filename pdf_number pdf_save_dir image page_num
      qr_codes.enum

/-- The full `for image, page_num in images` loop of `process_pdf`,
concatenating per-image records and save calls in order. -/
def process_images (decode : Img → Except Unit (List String))
    (enhance_image preprocess_image : Img → Except Unit Img)
    (save : Img → String → Except Unit Unit)
    (pdf_filename pdf_number pdf_save_dir : String) :
    List (Img × Nat) → List QRRecord × List (Img × String)
  | [] => ([], [])
  | (image, page_num) :: rest =>
    let r := process_one_image decode enhance_image preprocess_image save
        pdf_filename pdf_number pdf_save_dir image page_num
    let rr := process_images decode enhance_image preprocess_image save
        pdf_filename pdf_number pdf_save_dir rest
    (r.1 ++ rr.1, r.2 ++ rr.2)

/-- `process_pdf` from `main.py`, for a document whose basename is
`pdf_filename` and whose extracted images (with 1-based page numbers) are
`images`: derive `pdf_number` and `pdf_save_dir`, process every image, and
append the `"NO QR code found"` sentinel when no record was produced.
Returns the per-document `qr_code_data_list` and the save-call trace. -/
def process_pdf (decode : Img → Except Unit (List String))
    (enhance_image preprocess_image : Img → Except Unit Img)
    (save : Img → String → Except Unit Unit)
    (image_folder pdf_filename : String) (images : List (Img × Nat)) :
    List QRRecord × List (Img × String) :=
  let pdf_number := pdf_number_of pdf_filename
  let pdf_save_dir := os_path_join image_folder pdf_number
  let r := process_images decode enhance_image preprocess_image save
      pdf_filename pdf_number pdf_save_dir images
  if r.1 = [] then ([no_qr_record pdf_filename], r.2) else r

/-- The `for pdf_file in pdf_files` loop of `process_pdfs_in_folder`:
extend the consolidated list with the document's records, or with a single
error sentinel when processing that document raises (here: when image
extraction fails, the only uncaught failure point inside `process_pdf`). -/
def process_pdf_list (decode : Img → Except Unit (List String))
    (enhance_image preprocess_image : Img → Except Unit Img)
    (save : Img → String → Except Unit Unit)
    (extract : String → Except Unit (List (Img × Nat)))
    (image_folder : String) : List String → List QRRecord
  | [] => []
  | pdf_file :: rest =>
    (match extract pdf_file with
     | .ok images =>
       (process_pdf decode enhance_image preprocess_image save image_folder
         pdf_file images).1
     | .error _ => [error_record pdf_file]) ++
    process_pdf_list decode enhance_image preprocess_image save extract
      image_folder rest

/-- `process_pdfs_in_folder` from `main.py` (record assembly; the CSV write
of the consolidated list is plain I/O): filter the folder listing to names
ending in `".pdf"` and process each selected document in order. -/
def process_pdfs_in_folder (decode : Img → Except Unit (List String))
    (enhance_image preprocess_image : Img → Except Unit Img)
    (save : Img → String → Except Unit Unit)
    (extract : String → Except Unit (List (Img × Nat)))
    (folder : List String) (image_folder : String) : List QRRecord :=
  process_pdf_list decode enhance_image preprocess_image save extract
    image_folder (pdf_files_of folder)

/-- Three-point image type for concrete scenarios: an original image and
its two preprocessing variants. -/
inductive TestImg where
  | orig
  | enh
  | pre
deriving DecidableEq

/-- Scenario A decoder: only the denoise+threshold variant decodes,
to `["X"]`; every call succeeds. -/
def decodeA : TestImg → Except Unit (List String)
  | .pre => .ok ["X"]
  | _ => .ok []

/-- Scenario A photometric enhancement: total, `orig ↦ enh`. -/
def enhanceA : TestImg → Except Unit TestImg
  | .orig => .ok .enh
  | i => .ok i

/-- Scenario A denoise+threshold transform: total, `orig ↦ pre`. -/
def preprocessA : TestImg → Except Unit TestImg
  | .orig => .ok .pre
  | i => .ok i

/-- Scenario B photometric enhancement: raises on the original image. -/
def enhanceB : TestImg → Except Unit TestImg
  | .orig => .error ()
  | i => .ok i

/-- Batch scenario extraction oracle: `A.pdf` has one image on page 1,
`B.pdf` has no images, every other document (e.g. `C.pdf`) raises. -/
def extractABC : String → Except Unit (List (Unit × Nat))
  | "A.pdf" => .ok [((), 1)]
  | "B.pdf" => .ok []
  | _ => .error ()

/-! ## Helper lemmas -/

theorem sanitizeAux_not_forbidden (l : List Char) :
    ∀ (b : Bool) (c : Char), c ∈ sanitizeAux b l → forbiddenChar c = false := by
  induction l with
  | nil => intro b c h; simp [sanitizeAux] at h
  | cons hd tl ih =>
    intro b c h
    by_cases hf : forbiddenChar hd
    · cases b with
      | true =>
        rw [sanitizeAux, if_pos hf, if_pos rfl] at h
        exact ih true c h
      | false =>
        rw [sanitizeAux, if_pos hf, if_neg (by simp)] at h
        rcases List.mem_cons.mp h with h | h
        · subst h; decide
        · exact ih true c h
    · rw [sanitizeAux, if_neg hf] at h
      rcases List.mem_cons.mp h with h | h
      · subst h; exact Bool.eq_false_iff.mpr hf
      · exact ih false c h

theorem pySplit_headD (sep : Char) (l : List Char) :
    (pySplit sep l).headD [] = l.takeWhile (fun c => c ≠ sep) := by
  induction l with
  | nil => rfl
  | cons c rest ih =>
    by_cases h : c = sep
    · subst h
      rw [pySplit, if_pos rfl, List.headD_cons,
        List.takeWhile_cons_of_neg (by simp)]
    · rw [pySplit, if_neg h, List.headD_cons,
        List.takeWhile_cons_of_pos (by simp [h]), ih]

/-- The save path `process_pdf` builds for the enumerated payload `p`
(`p.1` is the 0-based index, `p.2` the payload) of an image on page
`page_num`. -/
def save_path (pdf_number pdf_save_dir : String) (page_num : Nat)
    (p : Nat × String) : String :=
  os_path_join pdf_save_dir
    (qr_image_filename pdf_number page_num p.1 (sanitize_filename p.2))

/-- The record `process_pdf` appends for the enumerated payload `p` of an
image on page `page_num` when its save succeeds. -/
def payload_record (pdf_filename pdf_number pdf_save_dir : String)
    (page_num : Nat) (p : Nat × String) : QRRecord :=
  { pdfName := pdf_filename, pageNumber := toString page_num,
    qrCodeData := p.2, qrImagePath := save_path pdf_number pdf_save_dir page_num p }

theorem process_qr_codes_eq (save : Img → String → Except Unit Unit)
    (pf pn dir : String) (image : Img) (page : Nat) :
    ∀ l : List (Nat × String),
      process_qr_codes save pf pn dir image page l =
        (l.filterMap (fun p =>
           match save image (save_path pn dir page p) with
           | .ok _ => some (payload_record pf pn dir page p)
           | .error _ => none),
         l.map (fun p => (image, save_path pn dir page p))) := by
  intro l
  induction l with
  | nil => rfl
  | cons p rest ih =>
    obtain ⟨qi, qd⟩ := p
    simp only [process_qr_codes, ih, List.filterMap_cons, List.map_cons,
      save_path, payload_record]
    cases save image
        (os_path_join dir (qr_image_filename pn page qi (sanitize_filename qd))) <;>
      simp

theorem process_images_eq (decode : Img → Except Unit (List String))
    (enh pre : Img → Except Unit Img) (save : Img → String → Except Unit Unit)
    (pf pn dir : String) :
    ∀ images : List (Img × Nat),
      process_images decode enh pre save pf pn dir images =
        (images.flatMap
           (fun q => (process_one_image decode enh pre save pf pn dir q.1 q.2).1),
         images.flatMap
           (fun q => (process_one_image decode enh pre save pf pn dir q.1 q.2).2)) := by
  intro images
  induction images with
  | nil => rfl
  | cons q rest ih =>
    obtain ⟨image, page⟩ := q
    simp only [process_images, ih, List.flatMap_cons]

theorem snd_mem_of_mem_enumFrom {α : Type} :
    ∀ (l : List α) (n : Nat) (p : Nat × α), p ∈ l.enumFrom n → p.2 ∈ l := by
  intro l
  induction l with
  | nil => intro n p h; simp [List.enumFrom] at h
  | cons a tl ih =>
    intro n p h
    rw [List.enumFrom] at h
    rcases List.mem_cons.mp h with h | h
    · subst h; simp
    · exact List.mem_cons_of_mem _ (ih _ _ h)

theorem append_ne_empty_right (a b : String) (hb : b ≠ "") : a ++ b ≠ "" := by
  intro h
  have hlen := congrArg String.length h
  rw [String.length_append] at hlen
  have h0 : ("" : String).length = 0 := rfl
  rw [h0] at hlen
  refine hb ?_
  have hb0 : b.length = 0 := by omega
  cases b with
  | mk data =>
    cases data with
    | nil => rfl
    | cons c cs => simp [String.length, List.length] at hb0

theorem qr_image_filename_ne_empty (pn : String) (page qi : Nat) (cid : String) :
    qr_image_filename pn page qi cid ≠ "" := by
  unfold qr_image_filename
  exact append_ne_empty_right _ _ (by decide)

theorem os_path_join_ne_empty (a b : String) (hb : b ≠ "") :
    os_path_join a b ≠ "" := by
  unfold os_path_join
  split
  · exact hb
  · split
    · exact append_ne_empty_right a b hb
    · exact append_ne_empty_right (a ++ "/") b hb

theorem save_path_ne_empty (pn dir : String) (page : Nat) (p : Nat × String) :
    save_path pn dir page p ≠ "" :=
  os_path_join_ne_empty _ _ (qr_image_filename_ne_empty _ _ _ _)

theorem read_qr_mem_decode (decode : Img → Except Unit (List String))
    (enhance_image preprocess_image : Img → Except Unit Img) (image : Img)
    (s : String)
    (h : s ∈ (read_qr_codes_from_image decode enhance_image preprocess_image
      image).1) :
    ∃ (j : Img) (l : List String), decode j = .ok l ∧ s ∈ l := by
  rcases hd1 : decode image with e1 | r1
  · simp [read_qr_codes_from_image, hd1] at h
  · by_cases hr1 : r1 = []
    · subst hr1
      rcases he : enhance_image image with e2 | enhanced
      · simp [read_qr_codes_from_image, hd1, he] at h
      · rcases hd2 : decode enhanced with e3 | r2
        · simp [read_qr_codes_from_image, hd1, he, hd2] at h
        · by_cases hr2 : r2 = []
          · subst hr2
            rcases hp : preprocess_image image with e4 | pre
            · simp [read_qr_codes_from_image, hd1, he, hd2, hp] at h
            · rcases hd3 : decode pre with e5 | r3
              · simp [read_qr_codes_from_image, hd1, he, hd2, hp, hd3] at h
              · simp [read_qr_codes_from_image, hd1, he, hd2, hp, hd3] at h
                exact ⟨pre, r3, hd3, h⟩
          · simp [read_qr_codes_from_image, hd1, he, hd2, hr2] at h
            exact ⟨enhanced, r2, hd2, h⟩
    · simp [read_qr_codes_from_image, hd1, hr1] at h
      exact ⟨image, r1, hd1, h⟩

theorem process_one_image_mem (decode : Img → Except Unit (List String))
    (enh pre : Img → Except Unit Img) (save : Img → String → Except Unit Unit)
    (pf pn dir : String) (image : Img) (page : Nat) (r : QRRecord)
    (h : r ∈ (process_one_image decode enh pre save pf pn dir image page).1) :
    r.qrImagePath ≠ "" ∧
      ∃ (j : Img) (l : List String), decode j = .ok l ∧ r.qrCodeData ∈ l := by
  simp only [process_one_image] at h
  split at h
  · simp at h
  · rw [process_qr_codes_eq] at h
    simp only [List.mem_filterMap] at h
    obtain ⟨p, hp, hmatch⟩ := h
    rcases hs : save image (save_path pn dir page p) with e | u <;>
      rw [hs] at hmatch
    · simp at hmatch
    · rw [Option.some_inj] at hmatch
      subst hmatch
      refine ⟨save_path_ne_empty pn dir page p, ?_⟩
      have hmem : p.2 ∈ (read_qr_codes_from_image decode enh pre image).1 :=
        snd_mem_of_mem_enumFrom _ 0 p hp
      exact read_qr_mem_decode decode enh pre image p.2 hmem

theorem process_images_mem (decode : Img → Except Unit (List String))
    (enh pre : Img → Except Unit Img) (save : Img → String → Except Unit Unit)
    (pf pn dir : String) (images : List (Img × Nat)) (r : QRRecord)
    (h : r ∈ (process_images decode enh pre save pf pn dir images).1) :
    r.qrImagePath ≠ "" ∧
      ∃ (j : Img) (l : List String), decode j = .ok l ∧ r.qrCodeData ∈ l := by
  rw [process_images_eq] at h
  simp only [List.mem_flatMap] at h
  obtain ⟨q, _, hr⟩ := h
  exact process_one_image_mem decode enh pre save pf pn dir q.1 q.2 r hr

theorem process_pdf_mem (decode : Img → Except Unit (List String))
    (enh pre : Img → Except Unit Img) (save : Img → String → Except Unit Unit)
    (image_folder pdf_filename : String) (images : List (Img × Nat))
    (r : QRRecord)
    (h : r ∈ (process_pdf decode enh pre save image_folder pdf_filename
      images).1) :
    r = no_qr_record pdf_filename ∨
      (r.qrImagePath ≠ "" ∧
        ∃ (j : Img) (l : List String), decode j = .ok l ∧ r.qrCodeData ∈ l) := by
  by_cases hc :
      (process_images decode enh pre save pdf_filename
        (pdf_number_of pdf_filename)
        (os_path_join image_folder (pdf_number_of pdf_filename)) images).1 = []
  · left
    simp only [process_pdf, if_pos hc] at h
    simpa using h
  · right
    simp only [process_pdf, if_neg hc] at h
    exact process_images_mem decode enh pre save pdf_filename _ _ images r h

theorem process_pdf_list_mem (decode : Img → Except Unit (List String))
    (enh pre : Img → Except Unit Img) (save : Img → String → Except Unit Unit)
    (extract : String → Except Unit (List (Img × Nat)))
    (image_folder : String) :
    ∀ (files : List String) (r : QRRecord),
      r ∈ process_pdf_list decode enh pre save extract image_folder files →
      (∃ f, r = error_record f) ∨ (∃ f, r = no_qr_record f) ∨
        (r.qrImagePath ≠ "" ∧
          ∃ (j : Img) (l : List String), decode j = .ok l ∧ r.qrCodeData ∈ l) := by
  intro files
  induction files with
  | nil => intro r h; simp [process_pdf_list] at h
  | cons f rest ih =>
    intro r h
    rw [process_pdf_list] at h
    rcases List.mem_append.mp h with h | h
    · rcases he : extract f with e | images <;> rw [he] at h
      · simp at h
        exact .inl ⟨f, h⟩
      · rcases process_pdf_mem decode enh pre save image_folder f images r h
          with h | h
        · exact .inr (.inl ⟨f, h⟩)
        · exact .inr (.inr h)
    · exact ih r h

theorem process_one_image_saves_fst (decode : Img → Except Unit (List String))
    (enh pre : Img → Except Unit Img) (save : Img → String → Except Unit Unit)
    (pf pn dir : String) (image : Img) (page : Nat) (ev : Img × String)
    (h : ev ∈ (process_one_image decode enh pre save pf pn dir image page).2) :
    ev.1 = image := by
  simp only [process_one_image] at h
  split at h
  · simp at h
  · rw [process_qr_codes_eq] at h
    simp only [List.mem_map] at h
    obtain ⟨p, _, hp⟩ := h
    rw [← hp]

theorem process_images_saves_mem (decode : Img → Except Unit (List String))
    (enh pre : Img → Except Unit Img) (save : Img → String → Except Unit Unit)
    (pf pn dir : String) (images : List (Img × Nat)) (ev : Img × String)
    (h : ev ∈ (process_images decode enh pre save pf pn dir images).2) :
    ∃ q ∈ images, ev.1 = q.1 := by
  rw [process_images_eq] at h
  simp only [List.mem_flatMap] at h
  obtain ⟨q, hq, hev⟩ := h
  exact ⟨q, hq, process_one_image_saves_fst decode enh pre save pf pn dir
    q.1 q.2 ev hev⟩

theorem process_pdf_saves (decode : Img → Except Unit (List String))
    (enh pre : Img → Except Unit Img) (save : Img → String → Except Unit Unit)
    (image_folder pdf_filename : String) (images : List (Img × Nat)) :
    (process_pdf decode enh pre save image_folder pdf_filename images).2 =
      (process_images decode enh pre save pdf_filename
        (pdf_number_of pdf_filename)
        (os_path_join image_folder (pdf_number_of pdf_filename)) images).2 := by
  by_cases hc :
      (process_images decode enh pre save pdf_filename
        (pdf_number_of pdf_filename)
        (os_path_join image_folder (pdf_number_of pdf_filename)) images).1 = [] <;>
    simp [process_pdf, hc]

theorem process_pdf_records_ne_nil (decode : Img → Except Unit (List String))
    (enh pre : Img → Except Unit Img) (save : Img → String → Except Unit Unit)
    (image_folder pdf_filename : String) (images : List (Img × Nat)) :
    (process_pdf decode enh pre save image_folder pdf_filename images).1 ≠ [] := by
  by_cases hc :
      (process_images decode enh pre save pdf_filename
        (pdf_number_of pdf_filename)
        (os_path_join image_folder (pdf_number_of pdf_filename)) images).1 = [] <;>
    simp [process_pdf, hc]

theorem process_pdf_list_length_ge (decode : Img → Except Unit (List String))
    (enh pre : Img → Except Unit Img) (save : Img → String → Except Unit Unit)
    (extract : String → Except Unit (List (Img × Nat)))
    (image_folder : String) :
    ∀ files : List String,
      files.length ≤
        (process_pdf_list decode enh pre save extract image_folder files).length := by
  intro files
  induction files with
  | nil => simp [process_pdf_list]
  | cons f rest ih =>
    rw [process_pdf_list, List.length_append, List.length_cons]
    have h1 : 1 ≤ (match extract f with
        | .ok images =>
          (process_pdf decode enh pre save image_folder f images).1
        | .error _ => [error_record f]).length := by
      cases extract f with
      | error e => simp
      | ok images =>
        exact List.length_pos.mpr
          (process_pdf_records_ne_nil decode enh pre save image_folder f images)
    omega

theorem process_pdf_list_flatMap (decode : Img → Except Unit (List String))
    (enh pre : Img → Except Unit Img) (save : Img → String → Except Unit Unit)
    (extract : String → Except Unit (List (Img × Nat)))
    (image_folder : String) :
    ∀ files : List String,
      process_pdf_list decode enh pre save extract image_folder files =
        files.flatMap (fun pdf_file =>
          match extract pdf_file with
          | .ok images =>
            (process_pdf decode enh pre save image_folder pdf_file images).1
          | .error _ => [error_record pdf_file]) := by
  intro files
  induction files with
  | nil => rfl
  | cons f rest ih => rw [process_pdf_list, List.flatMap_cons, ih]

/-! ## Claim theorems -/

/-- C2 counterexample: on scenario A only the denoise+threshold variant
(`TestImg.pre`) yields a payload — the orchestrator's result is that
variant's decode output `["X"]` — but the image `process_pdf` hands to
`save` is the original `TestImg.orig`, not the variant `TestImg.pre`. -/
theorem threshold_variant_persisted_cex :
    (read_qr_codes_from_image decodeA enhanceA preprocessA TestImg.orig).1 =
      ["X"] ∧
    (process_pdf decodeA enhanceA preprocessA (fun _ _ => Except.ok ()) "out"
        "a.pdf" [(TestImg.orig, 1)]).2 =
      [(TestImg.orig, "out/a/apage1qr1idX.png")] ∧
    preprocessA TestImg.orig = .ok TestImg.pre ∧
    TestImg.orig ≠ TestImg.pre := by decide

/-- C2 amended: for an image on which only the denoise+threshold variant
yields payloads (raw and enhanced decodes return `[]`, all calls return
normally), the orchestrator's final result equals that variant's decode
output; but every image `process_pdf` hands to `save` for that image's
records is the original raster image, not the variant. -/
theorem threshold_variant_result_original_persisted
    (decode : Img → Except Unit (List String))
    (enhance_image preprocess_image : Img → Except Unit Img)
    (save : Img → String → Except Unit Unit)
    (image enhanced preprocessed : Img) (r3 : List String) (n : Nat)
    (image_folder pdf_filename : String)
    (h1 : decode image = .ok [])
    (h2 : enhance_image image = .ok enhanced)
    (h3 : decode enhanced = .ok [])
    (h4 : preprocess_image image = .ok preprocessed)
    (h5 : decode preprocessed = .ok r3) :
    (read_qr_codes_from_image decode enhance_image preprocess_image image).1 =
      r3 ∧
    ∀ ev ∈ (process_pdf decode enhance_image preprocess_image save
        image_folder pdf_filename [(image, n)]).2, ev.1 = image := by
  constructor
  · simp [read_qr_codes_from_image, h1, h2, h3, h4, h5]
  · intro ev hev
    rw [process_pdf_saves] at hev
    obtain ⟨q, hq, hfst⟩ := process_images_saves_mem decode enhance_image
      preprocess_image save pdf_filename _ _ [(image, n)] ev hev
    rcases List.mem_singleton.mp hq with rfl
    exact hfst

/-- Witness for the amended C2, on scenario A: the orchestrator result is
`["X"]` and the (single) save event's image is the original. -/
theorem threshold_variant_result_original_persisted_wit :
    (read_qr_codes_from_image decodeA enhanceA preprocessA TestImg.orig).1 =
      ["X"] ∧
    (TestImg.orig, "out/a/apage1qr1idX.png").1 = TestImg.orig := by
  have h := threshold_variant_result_original_persisted decodeA enhanceA
    preprocessA (fun _ _ => Except.ok ()) TestImg.orig TestImg.enh TestImg.pre
    ["X"] 1 "out" "a.pdf" rfl rfl rfl rfl rfl
  exact ⟨h.1, h.2 (TestImg.orig, "out/a/apage1qr1idX.png") (by decide)⟩

/-- C9: a save failure omits exactly that one QRRecord and nothing else:
the records of the enumerated-payload loop are the save-successful
payloads in order (`filterMap`), and both the payload loop and the image
loop distribute over concatenation, so the remaining payloads of the image
and the remaining images of the document are processed unaffected. -/
theorem save_failure_skips_only_that_record
    (decode : Img → Except Unit (List String))
    (enh pre : Img → Except Unit Img) (save : Img → String → Except Unit Unit)
    (pf pn dir : String) (image : Img) (page : Nat)
    (l l1 l2 : List (Nat × String)) (imgs1 imgs2 : List (Img × Nat)) :
    (process_qr_codes save pf pn dir image page l).1 =
      l.filterMap (fun p =>
        match save image (save_path pn dir page p) with
        | .ok _ => some (payload_record pf pn dir page p)
        | .error _ => none) ∧
    (process_qr_codes save pf pn dir image page (l1 ++ l2)).1 =
      (process_qr_codes save pf pn dir image page l1).1 ++
        (process_qr_codes save pf pn dir image page l2).1 ∧
    (process_images decode enh pre save pf pn dir (imgs1 ++ imgs2)).1 =
      (process_images decode enh pre save pf pn dir imgs1).1 ++
        (process_images decode enh pre save pf pn dir imgs2).1 := by
  refine ⟨?_, ?_, ?_⟩
  · rw [process_qr_codes_eq]
  · rw [process_qr_codes_eq, process_qr_codes_eq, process_qr_codes_eq]
    simp [List.filterMap_append]
  · rw [process_images_eq, process_images_eq, process_images_eq]
    simp [List.flatMap_append]

/-- C6: `sanitize_filename` is deterministic (same input string always
yields the same output string) and its output never contains any of the
characters `\\ / : " * ? < > |`. -/
theorem sanitize_deterministic_and_forbidden_free (s : String) :
    sanitize_filename s = sanitize_filename s ∧
    ∀ c ∈ (sanitize_filename s).data, forbiddenChar c = false := by
  refine ⟨rfl, fun c hc => ?_⟩
  exact sanitizeAux_not_forbidden s.data false c hc

/-- Witness for C6 at the concrete input `"a:b"`. -/
theorem sanitize_deterministic_and_forbidden_free_wit :
    sanitize_filename "a:b" = sanitize_filename "a:b" ∧
      forbiddenChar 'a' = false :=
  ⟨(sanitize_deterministic_and_forbidden_free "a:b").1,
   (sanitize_deterministic_and_forbidden_free "a:b").2 'a' (by decide)⟩

/-- C7: the document identifier (`pdf_filename.split('.')[0]`, used for the
image subfolder and in saved-image filenames via `process_pdf`) is exactly
the prefix of the filename before its first period; in particular
`"v2.final.pdf"` yields `"v2"`. -/
theorem pdf_number_is_stem_before_first_dot :
    (∀ f : String, pdf_number_of f = stemBeforeFirstDot f) ∧
    pdf_number_of "v2.final.pdf" = "v2" := by
  refine ⟨fun f => ?_, by decide⟩
  unfold pdf_number_of stemBeforeFirstDot
  rw [pySplit_headD]

/-- C10: the batch processor selects exactly the top-level folder entries
whose names end with the case-sensitive lowercase suffix `".pdf"`; entries
such as `"A.PDF"` are silently excluded. -/
theorem pdf_selection_lowercase_suffix_only :
    (∀ (folder : List String) (f : String),
      f ∈ pdf_files_of folder ↔ f ∈ folder ∧ py_endswith f ".pdf" = true) ∧
    pdf_files_of ["A.PDF", "b.pdf", "c.txt"] = ["b.pdf"] := by
  refine ⟨fun folder f => ?_, by decide⟩
  simp [pdf_files_of, List.mem_filter]

/-- C1: on any image whose five oracle calls all return normally, the
orchestrator attempts raw, then photometric, then denoise+threshold, in
that order; it returns the first attempt's payloads and makes no further
calls once an attempt yields a non-empty list (in particular neither
transform runs when the raw attempt succeeds), and it returns `[]` when
all three attempts yield `[]`. -/
theorem orchestrator_fallback_short_circuit
    (decode : Img → Except Unit (List String))
    (enhance_image preprocess_image : Img → Except Unit Img)
    (image enhanced preprocessed : Img) (r1 r2 r3 : List String)
    (h1 : decode image = .ok r1)
    (h2 : enhance_image image = .ok enhanced)
    (h3 : decode enhanced = .ok r2)
    (h4 : preprocess_image image = .ok preprocessed)
    (h5 : decode preprocessed = .ok r3) :
    (r1 ≠ [] →
      read_qr_codes_from_image decode enhance_image preprocess_image image =
        (r1, [.decode image])) ∧
    (r1 = [] → r2 ≠ [] →
      read_qr_codes_from_image decode enhance_image preprocess_image image =
        (r2, [.decode image, .enhance image, .decode enhanced])) ∧
    (r1 = [] → r2 = [] →
      read_qr_codes_from_image decode enhance_image preprocess_image image =
        (r3, [.decode image, .enhance image, .decode enhanced,
          .preprocess image, .decode preprocessed])) := by
  refine ⟨fun hr1 => ?_, fun hr1 hr2 => ?_, fun hr1 hr2 => ?_⟩
  · simp [read_qr_codes_from_image, h1, hr1]
  · subst hr1
    simp [read_qr_codes_from_image, h1, h2, h3, hr2]
  · subst hr1; subst hr2
    simp [read_qr_codes_from_image, h1, h2, h3, h4, h5]

/-- Witness for C1: a decoder that succeeds on the raw image; the
orchestrator returns its payloads having called only the raw decode. -/
theorem orchestrator_fallback_short_circuit_wit :
    read_qr_codes_from_image (fun _ : Unit => Except.ok ["A"])
        (fun _ => Except.ok ()) (fun _ => Except.ok ()) () =
      (["A"], [Call.decode ()]) :=
  (orchestrator_fallback_short_circuit (fun _ : Unit => Except.ok ["A"])
      (fun _ => Except.ok ()) (fun _ => Except.ok ()) () () () ["A"] ["A"]
      ["A"] rfl rfl rfl rfl rfl).1 (by decide)

/-- C3 counterexample: when the photometric transform raises on the
original image (scenario B), the denoise+threshold attempt is never
executed — `Call.preprocess` is absent from the trace and the result is
`[]` — even though decoding the denoise+threshold variant would have
succeeded with `["X"]`.  So a transform exception does prevent the
remaining fallback attempt. -/
theorem transform_exception_cex :
    read_qr_codes_from_image decodeA enhanceB preprocessA TestImg.orig =
      ([], [Call.decode TestImg.orig, Call.enhance TestImg.orig]) ∧
    Call.preprocess TestImg.orig ∉
      (read_qr_codes_from_image decodeA enhanceB preprocessA TestImg.orig).2 ∧
    enhanceB TestImg.orig = .error () ∧
    decodeA TestImg.pre = .ok ["X"] := by decide

/-- C3 amended: an exception raised by either preprocessing transform is
caught — the orchestrator returns normally with the payloads accumulated
so far (the empty list) — but it aborts the remaining fallback attempts:
after the photometric transform raises, neither the enhanced-image decode
nor the denoise+threshold attempt is executed, and after the
denoise+threshold transform raises its decode is not executed. -/
theorem transform_exception_caught_but_aborts
    (decode : Img → Except Unit (List String))
    (enhance_image preprocess_image : Img → Except Unit Img)
    (image : Img) (h1 : decode image = .ok []) :
    (enhance_image image = .error () →
      read_qr_codes_from_image decode enhance_image preprocess_image image =
        ([], [.decode image, .enhance image])) ∧
    (∀ enhanced, enhance_image image = .ok enhanced →
      decode enhanced = .ok [] → preprocess_image image = .error () →
      read_qr_codes_from_image decode enhance_image preprocess_image image =
        ([], [.decode image, .enhance image, .decode enhanced,
          .preprocess image])) := by
  constructor
  · intro h2
    simp [read_qr_codes_from_image, h1, h2]
  · intro enhanced h2 h3 h4
    simp [read_qr_codes_from_image, h1, h2, h3, h4]

/-- Witness for the amended C3, on scenario B. -/
theorem transform_exception_caught_but_aborts_wit :
    read_qr_codes_from_image decodeA enhanceB preprocessA TestImg.orig =
      ([], [Call.decode TestImg.orig, Call.enhance TestImg.orig]) :=
  (transform_exception_caught_but_aborts decodeA enhanceB preprocessA
      TestImg.orig rfl).1 rfl

/-- C4: every processed document yields at least one QRRecord; when the
image loop produced zero detection records the output is exactly the single
sentinel `{pdf_filename, "", "NO QR code found", ""}`; and the batch
output has at least as many rows as there are selected documents. -/
theorem every_document_yields_a_record
    (decode : Img → Except Unit (List String))
    (enh pre : Img → Except Unit Img) (save : Img → String → Except Unit Unit)
    (extract : String → Except Unit (List (Img × Nat)))
    (image_folder pdf_filename : String) (images : List (Img × Nat))
    (folder : List String) :
    (process_pdf decode enh pre save image_folder pdf_filename images).1 ≠ [] ∧
    ((process_images decode enh pre save pdf_filename
        (pdf_number_of pdf_filename)
        (os_path_join image_folder (pdf_number_of pdf_filename)) images).1 = [] →
      (process_pdf decode enh pre save image_folder pdf_filename images).1 =
        [{ pdfName := pdf_filename, pageNumber := "",
           qrCodeData := "NO QR code found", qrImagePath := "" }]) ∧
    (pdf_files_of folder).length ≤
      (process_pdfs_in_folder decode enh pre save extract folder
        image_folder).length := by
  refine ⟨process_pdf_records_ne_nil decode enh pre save image_folder
    pdf_filename images, fun h => ?_, ?_⟩
  · simp [process_pdf, h, no_qr_record]
  · unfold process_pdfs_in_folder
    exact process_pdf_list_length_ge decode enh pre save extract image_folder
      (pdf_files_of folder)

/-- Witness for C4: a document whose single image decodes to no payloads
yields exactly the none-found sentinel record. -/
theorem every_document_yields_a_record_wit :
    (process_pdf (fun _ : Unit => Except.ok ([] : List String))
        (fun _ => Except.ok ()) (fun _ => Except.ok ())
        (fun _ _ => Except.ok ()) "out" "b.pdf" [((), 1)]).1 =
      [{ pdfName := "b.pdf", pageNumber := "",
         qrCodeData := "NO QR code found", qrImagePath := "" }] :=
  (every_document_yields_a_record (fun _ : Unit => Except.ok ([] : List String))
      (fun _ => Except.ok ()) (fun _ => Except.ok ()) (fun _ _ => Except.ok ())
      (fun _ => Except.ok []) "out" "b.pdf" [((), 1)] []).2.1 (by decide)

/-- C8: a document whose processing raises contributes exactly one
`"Error processing PDF"` sentinel and the batch continues — the
consolidated output is the concatenation, in folder-enumeration order, of
each selected document's record list (or its error sentinel).  Concretely,
a folder `[A.pdf (2 QR codes), B.pdf (0 QR codes), C.pdf (raises)]` yields
exactly the 4 rows `[A-row1, A-row2, NO-QR sentinel for B, error sentinel
for C]` in that order. -/
theorem batch_error_sentinel_and_concatenation :
    (∀ (Img : Type) (decode : Img → Except Unit (List String))
        (enh pre : Img → Except Unit Img)
        (save : Img → String → Except Unit Unit)
        (extract : String → Except Unit (List (Img × Nat)))
        (folder : List String) (image_folder : String),
      process_pdfs_in_folder decode enh pre save extract folder image_folder =
        (pdf_files_of folder).flatMap (fun pdf_file =>
          match extract pdf_file with
          | .ok images =>
            (process_pdf decode enh pre save image_folder pdf_file images).1
          | .error _ => [error_record pdf_file])) ∧
    process_pdfs_in_folder (fun _ : Unit => Except.ok ["q1", "q2"])
        (fun _ => Except.ok ()) (fun _ => Except.ok ())
        (fun _ _ => Except.ok ()) extractABC ["A.pdf", "B.pdf", "C.pdf"]
        "out" =
      [{ pdfName := "A.pdf", pageNumber := "1", qrCodeData := "q1",
         qrImagePath := "out/A/Apage1qr1idq1.png" },
       { pdfName := "A.pdf", pageNumber := "1", qrCodeData := "q2",
         qrImagePath := "out/A/Apage1qr2idq2.png" },
       { pdfName := "B.pdf", pageNumber := "",
         qrCodeData := "NO QR code found", qrImagePath := "" },
       { pdfName := "C.pdf", pageNumber := "",
         qrCodeData := "Error processing PDF", qrImagePath := "" }] := by
  constructor
  · intro Img decode enh pre save extract folder image_folder
    unfold process_pdfs_in_folder
    exact process_pdf_list_flatMap decode enh pre save extract image_folder
      (pdf_files_of folder)
  · decide

/-- C5 counterexample: a QR code whose decoded payload is literally
`"NO QR code found"` yields a record with a non-empty saved-image path
whose payload equals a sentinel payload, so the claimed iff (non-empty
path ↔ payload differs from both sentinel strings) fails on a produced
record. -/
theorem saved_path_iff_payload_cex :
    (process_pdf (fun _ : Unit => Except.ok ["NO QR code found"])
        (fun _ => Except.ok ()) (fun _ => Except.ok ())
        (fun _ _ => Except.ok ()) "out" "a.pdf" [((), 1)]).1 =
      [{ pdfName := "a.pdf", pageNumber := "1",
         qrCodeData := "NO QR code found",
         qrImagePath := "out/a/apage1qr1idNO QR code found.png" }] ∧
    ¬ ((QRRecord.qrImagePath
          { pdfName := "a.pdf", pageNumber := "1",
            qrCodeData := "NO QR code found",
            qrImagePath := "out/a/apage1qr1idNO QR code found.png" } ≠ "") ↔
        (QRRecord.qrCodeData
            { pdfName := "a.pdf", pageNumber := "1",
              qrCodeData := "NO QR code found",
              qrImagePath := "out/a/apage1qr1idNO QR code found.png" } ≠
            "NO QR code found" ∧
          QRRecord.qrCodeData
              { pdfName := "a.pdf", pageNumber := "1",
                qrCodeData := "NO QR code found",
                qrImagePath := "out/a/apage1qr1idNO QR code found.png" } ≠
            "Error processing PDF")) := by decide

/-- C5 amended: provided the decoder never returns a payload textually
equal to one of the sentinel strings, every record produced by batch
processing has a non-empty saved-image path iff its payload differs from
both sentinel payloads `"NO QR code found"` and `"Error processing PDF"`
(detection records always carry a non-empty path; both sentinels carry an
empty one). -/
theorem saved_path_iff_real_payload
    (decode : Img → Except Unit (List String))
    (enh pre : Img → Except Unit Img) (save : Img → String → Except Unit Unit)
    (extract : String → Except Unit (List (Img × Nat)))
    (folder : List String) (image_folder : String)
    (hdec : ∀ (i : Img) (l : List String), decode i = .ok l →
      ∀ s ∈ l, s ≠ "NO QR code found" ∧ s ≠ "Error processing PDF")
    (r : QRRecord)
    (hr : r ∈ process_pdfs_in_folder decode enh pre save extract folder
      image_folder) :
    r.qrImagePath ≠ "" ↔
      (r.qrCodeData ≠ "NO QR code found" ∧
        r.qrCodeData ≠ "Error processing PDF") := by
  rcases process_pdf_list_mem decode enh pre save extract image_folder
      (pdf_files_of folder) r hr with ⟨f, rfl⟩ | ⟨f, rfl⟩ |
      ⟨hpath, j, l, hjl, hmem⟩
  · simp [error_record]
  · simp [no_qr_record]
  · have hs := hdec j l hjl _ hmem
    exact ⟨fun _ => hs, fun _ => hpath⟩

/-- Witness for the amended C5 on a concrete batch with payload `"A"`. -/
theorem saved_path_iff_real_payload_wit :
    QRRecord.qrImagePath
        { pdfName := "a.pdf", pageNumber := "1", qrCodeData := "A",
          qrImagePath := "out/a/apage1qr1idA.png" } ≠ "" ↔
      (QRRecord.qrCodeData
          { pdfName := "a.pdf", pageNumber := "1", qrCodeData := "A",
            qrImagePath := "out/a/apage1qr1idA.png" } ≠ "NO QR code found" ∧
        QRRecord.qrCodeData
            { pdfName := "a.pdf", pageNumber := "1", qrCodeData := "A",
              qrImagePath := "out/a/apage1qr1idA.png" } ≠
          "Error processing PDF") := by
  refine saved_path_iff_real_payload (fun _ : Unit => Except.ok ["A"])
    (fun _ => Except.ok ()) (fun _ => Except.ok ()) (fun _ _ => Except.ok ())
    (fun _ => Except.ok [((), 1)]) ["a.pdf"] "out" ?_ _ (by decide)
  intro i l h s hs
  rw [Except.ok.injEq] at h
  subst h
  rcases List.mem_singleton.mp hs with rfl
  exact ⟨by decide, by decide⟩

end QRSpec
